import Mathlib

/-!
Verification of the face-recognition attendance system's orchestration core.

Shallow embedding of the repository's Python source into Lean 4:
* `AntiSpoof` embeds `anti_spoofing.py` (the liveness voter).
* `Timetable` data and queries embed `core/models.py`, the current-slot query
  of `main.py`, and the classroom lookup of `core/views.py`.
* `Ledger` embeds the attendance-marking endpoints
  (`core/views.py:api_mark_attendance`,
  `django_integration.py:DirectAttendanceManager.mark_attendance`).
* `Lifecycle` embeds `Lecture.start_lecture` / `Lecture.end_lecture` and the
  end-lecture views.
* `Monitor` embeds the per-frame recognition loop of `main.py`.
* `ConflictForm` embeds `core/forms.py:ScheduleExtraLectureForm.clean`.

Machine reals that only ever get compared are modelled as rationals; times of
day and dates are modelled as naturals (minutes, absolute day numbers).
-/

namespace AntiSpoof

/-- Detector configuration, from `AntiSpoofingDetector.__init__`
(`anti_spoofing.py`).  The numeric defaults are the dictionary literals. -/
structure Config where
  specular_threshold : ℚ
  specular_intensity : ℚ
  edge_sharpness_max : ℚ
  color_blue_shift_max : ℚ
  reflection_variance_min : ℚ
  min_checks_to_fail : Nat
  enabled : Bool
deriving Repr, DecidableEq

/-- The default configuration dictionary of `AntiSpoofingDetector.__init__`:
specular_threshold 0.005, specular_intensity 215, edge_sharpness_max 45,
color_blue_shift_max 1.05, reflection_variance_min 50, min_checks_to_fail 2,
enabled True. -/
def defaultConfig : Config :=
  { specular_threshold := 5 / 1000
    specular_intensity := 215
    edge_sharpness_max := 45
    color_blue_shift_max := 105 / 100
    reflection_variance_min := 50
    min_checks_to_fail := 2
    enabled := true }

/-- Numeric summaries that the OpenCV kernels compute from the face crop.
The pixel-level kernels (cvtColor, Laplacian, findContours, Sobel, resize)
are external collaborators; each field is the scalar each `detect_*` method
derives from them and then compares against the configuration:
`brightFrac` and `brightRegions` from `detect_specular_highlights`,
`edgeMean` from `detect_edge_sharpness`, `blueShift` and `clipFrac` from
`detect_color_anomaly`, `regionVar` from `detect_reflection_pattern`,
`textureVar` from `detect_texture_analysis`; `height`/`width` are
`face_bgr.shape[0]` / `face_bgr.shape[1]`. -/
structure FaceFeatures where
  height : Nat
  width : Nat
  brightFrac : ℚ
  brightRegions : Nat
  edgeMean : ℚ
  blueShift : ℚ
  clipFrac : ℚ
  regionVar : ℚ
  textureVar : ℚ
deriving Repr, DecidableEq

/-- `detect_specular_highlights`: spoof when the bright-pixel fraction exceeds
`specular_threshold` or there are at least 3 significant bright regions. -/
def detect_specular_highlights (cfg : Config) (f : FaceFeatures) : Bool :=
  decide (cfg.specular_threshold < f.brightFrac) || decide (3 ≤ f.brightRegions)

/-- `detect_edge_sharpness`: spoof when the mean absolute Laplacian exceeds
`edge_sharpness_max`. -/
def detect_edge_sharpness (cfg : Config) (f : FaceFeatures) : Bool :=
  decide (cfg.edge_sharpness_max < f.edgeMean)

/-- `detect_color_anomaly`: spoof when the blue-shift exceeds
`color_blue_shift_max` or the clipped-pixel fraction exceeds 0.08. -/
def detect_color_anomaly (cfg : Config) (f : FaceFeatures) : Bool :=
  decide (cfg.color_blue_shift_max < f.blueShift) || decide ((8 / 100 : ℚ) < f.clipFrac)

/-- `detect_reflection_pattern`: spoof when the 3x3 region-mean variance is
below `reflection_variance_min`. -/
def detect_reflection_pattern (cfg : Config) (f : FaceFeatures) : Bool :=
  decide (f.regionVar < cfg.reflection_variance_min)

/-- `detect_texture_analysis`: spoof when the resized Laplacian variance is
below the hard-coded threshold 80.0. -/
def detect_texture_analysis (f : FaceFeatures) : Bool :=
  decide (f.textureVar < (80 : ℚ))

/-- Names of the five checks, in the order `check_liveness` runs them. -/
inductive CheckName where
  | specular
  | sharpness
  | color
  | reflection
  | texture
deriving Repr, DecidableEq

/-- The spoof classification of `check_liveness`. -/
inductive SpoofType where
  | noSpoof
  | screenSpoof
  | printedSpoof
  | unknownSpoof
deriving Repr, DecidableEq

/-- Result dictionary of `check_liveness` (the fields the claims are about). -/
structure LivenessResult where
  is_live : Bool
  confidence : ℚ
  spoof_type : SpoofType
  failed : List CheckName
deriving Repr, DecidableEq

/-- The `failed_checks` list accumulated by `check_liveness`, in source
order: specular, sharpness, color, reflection, texture. -/
def failedChecks (cfg : Config) (f : FaceFeatures) : List CheckName :=
  (if detect_specular_highlights cfg f then [CheckName.specular] else []) ++
  (if detect_edge_sharpness cfg f then [CheckName.sharpness] else []) ++
  (if detect_color_anomaly cfg f then [CheckName.color] else []) ++
  (if detect_reflection_pattern cfg f then [CheckName.reflection] else []) ++
  (if detect_texture_analysis f then [CheckName.texture] else [])

/-- `len(failed_checks)`. -/
def numFailed (cfg : Config) (f : FaceFeatures) : Nat :=
  (failedChecks cfg f).length

/-- `AntiSpoofingDetector.check_liveness` (`anti_spoofing.py`): the
disabled short-circuit, the small-face fail-open branch, the five checks,
the vote `is_live = num_failed < min_checks_to_fail`, the confidence
`(5 - num_failed) / 5`, and the spoof-type classification. -/
def check_liveness (cfg : Config) (f : FaceFeatures) : LivenessResult :=
  if ¬ cfg.enabled then
    { is_live := true, confidence := 1, spoof_type := SpoofType.noSpoof, failed := [] }
  else if f.height < 50 ∨ f.width < 50 then
    { is_live := true, confidence := 1 / 2, spoof_type := SpoofType.unknownSpoof, failed := [] }
  else
    let failed := failedChecks cfg f
    let num := failed.length
    let live := decide (num < cfg.min_checks_to_fail)
    let conf : ℚ := ((5 : ℚ) - (num : ℚ)) / 5
    let st :=
      if live then SpoofType.noSpoof
      else if CheckName.specular ∈ failed ∨ CheckName.color ∈ failed then
        SpoofType.screenSpoof
      else if CheckName.reflection ∈ failed ∨ CheckName.texture ∈ failed then
        SpoofType.printedSpoof
      else SpoofType.unknownSpoof
    { is_live := live, confidence := conf, spoof_type := st, failed := failed }

end AntiSpoof

namespace Schedule

/-- A `Timetable` row (`core/models.py`): room, classroom, day of week,
start/end times (minutes since midnight), the `is_recurring` flag and the
`extra_date` of a one-off slot (absolute day number).  `subject` and
`teacher` play no part in any verified query and are omitted. -/
structure Slot where
  tid : Nat
  room : Nat
  classroom : Nat
  day_of_week : Nat
  start_time : Nat
  end_time : Nat
  is_recurring : Bool
  extra_date : Option Nat
deriving Repr, DecidableEq

/-- A `CancelledLecture` row (`core/models.py`): a timetable id and the
specific date the occurrence is cancelled. -/
structure Cancelled where
  timetable : Nat
  cdate : Nat
deriving Repr, DecidableEq

/-- A wall-clock instant: absolute day number and minutes since midnight. -/
structure Instant where
  iday : Nat
  itime : Nat
deriving Repr, DecidableEq

/-- `date.weekday()`: day of week of an absolute day number. -/
def weekday (d : Nat) : Nat := d % 7

/-- `Timetable.Meta.ordering` comparison key: `['day_of_week', 'start_time']`. -/
def slotLe (a b : Slot) : Bool :=
  decide (a.day_of_week < b.day_of_week) ||
    (decide (a.day_of_week = b.day_of_week) && decide (a.start_time ≤ b.start_time))

/-- Keep the element that the `Meta.ordering` sort puts first (stable:
on equal keys the earlier row wins). -/
def chooseEarlier (a b : Slot) : Slot := if slotLe a b then a else b

/-- `queryset.first()` under `Timetable.Meta.ordering`. -/
def firstOrdered : List Slot → Option Slot
  | [] => none
  | t :: ts => some (ts.foldl chooseEarlier t)

/-- The filter of `get_current_timetable_entry` (`main.py`):
`Q(room, day_of_week=current_day, is_recurring=True) |
 Q(room, is_recurring=False, extra_date=today)` together with
`start_time__lte=current_time, end_time__gt=current_time`. -/
def currentEntryPred (room : Nat) (now : Instant) (t : Slot) : Bool :=
  ((decide (t.room = room) && decide (t.day_of_week = weekday now.iday) && t.is_recurring) ||
   (decide (t.room = room) && !t.is_recurring && decide (t.extra_date = some now.iday))) &&
  decide (t.start_time ≤ now.itime) && decide (now.itime < t.end_time)

/-- `get_current_timetable_entry` (`main.py`, lines 91-106): filter the
timetable and take `.first()`.  No cancellation filter appears in the
source query. -/
def get_current_timetable_entry (tts : List Slot) (room : Nat) (now : Instant) :
    Option Slot :=
  firstOrdered (tts.filter (currentEntryPred room now))

/-- The filter of the classroom branch of `api_start_lecture`
(`core/views.py`, lines 480-485): `classroom_id`, `day_of_week`,
`start_time__lte=current_time, end_time__gte=current_time` —
note the inclusive end bound. -/
def classroomEntryPred (classroom : Nat) (now : Instant) (t : Slot) : Bool :=
  decide (t.classroom = classroom) && decide (t.day_of_week = weekday now.iday) &&
  decide (t.start_time ≤ now.itime) && decide (now.itime ≤ t.end_time)

/-- The classroom-based timetable lookup of `api_start_lecture`. -/
def apiClassroomLookup (tts : List Slot) (classroom : Nat) (now : Instant) :
    Option Slot :=
  firstOrdered (tts.filter (classroomEntryPred classroom now))

/-- Whether a slot has a `CancelledLecture` row for a given date
(the lookup the dashboard's `.exclude(cancellations__date=...)` performs). -/
def isCancelledOn (cls : List Cancelled) (t : Slot) (d : Nat) : Bool :=
  cls.any (fun c => decide (c.timetable = t.tid) && decide (c.cdate = d))

/-- The claim that the current-slot query only returns slots that are
effective on the instant's date, contain its time in [start, end), and are
not cancelled for that date. -/
def currentSlotClaim : Prop :=
  ∀ (tts : List Slot) (cls : List Cancelled) (room : Nat) (now : Instant)
    (s : Slot),
    get_current_timetable_entry tts room now = some s →
    (if s.is_recurring then s.day_of_week = weekday now.iday
     else s.extra_date = some now.iday) ∧
    s.start_time ≤ now.itime ∧ now.itime < s.end_time ∧
    isCancelledOn cls s now.iday = false

end Schedule

namespace Ledger

/-- Attendance status choices (`core/models.py:Attendance.STATUS_CHOICES`). -/
inductive AttStatus where
  | present
  | absent
  | late
deriving Repr, DecidableEq

/-- An `Attendance` row: lecture id, student id, status, `marked_at`
(minutes timestamp) and `marked_by_face_recognition`. -/
structure AttRecord where
  lecture : Nat
  student : Nat
  status : AttStatus
  marked_at : Option Nat
  marked_by_face_recognition : Bool
deriving Repr, DecidableEq

/-- The JSON fields of `api_mark_attendance` the claims are about. -/
structure MarkResult where
  success : Bool
  already_marked : Bool
deriving Repr, DecidableEq

/-- Row lookup by the `unique_together ['lecture', 'student']` key. -/
def findRecord (recs : List AttRecord) (lec stu : Nat) : Option AttRecord :=
  recs.find? (fun r => decide (r.lecture = lec) && decide (r.student = stu))

/-- Embeds `Attendance.objects.get_or_create` with default status absent:
returns the found or created row, the created flag and the table. -/
def get_or_create (recs : List AttRecord) (lec stu : Nat) :
    AttRecord × Bool × List AttRecord :=
  match findRecord recs lec stu with
  | some r => (r, false, recs)
  | none =>
    let nr : AttRecord := ⟨lec, stu, AttStatus.absent, none, false⟩
    (nr, true, recs ++ [nr])

/-- `Attendance.mark_present(by_face_recognition=True)` applied to the row
keyed by `(lec, stu)`: status `present`, `marked_at = now`, flag set
(`core/models.py`, lines 275-280). -/
def markInList (recs : List AttRecord) (lec stu now : Nat) : List AttRecord :=
  match recs with
  | [] => []
  | r :: rs =>
    if decide (r.lecture = lec) && decide (r.student = stu) then
      { r with status := AttStatus.present, marked_at := some now,
               marked_by_face_recognition := true } :: rs
    else r :: markInList rs lec stu now

/-- The attendance-mutation core shared by `api_mark_attendance`
(`core/views.py`, lines 419-441) and
`DirectAttendanceManager.mark_attendance` (`django_integration.py`,
lines 213-233), after the student/lecture/classroom guards:
get-or-create with default absent, then `mark_present` only when the
status is not already present, reporting `already_marked`
accordingly. -/
def mark_attendance_core (recs : List AttRecord) (lec stu now : Nat) :
    MarkResult × List AttRecord :=
  let gc := get_or_create recs lec stu
  if gc.1.status ≠ AttStatus.present then
    (⟨true, false⟩, markInList gc.2.2 lec stu now)
  else
    (⟨true, true⟩, gc.2.2)

/-- Whether the row for `(lec, stu)` exists and is present. -/
def recordPresent (recs : List AttRecord) (lec stu : Nat) : Bool :=
  match findRecord recs lec stu with
  | some r => decide (r.status = AttStatus.present)
  | none => false

/-- A sequence of biometric mark calls at the given times, collecting each
call's result and threading the table. -/
def markSeq (recs : List AttRecord) (lec stu : Nat) :
    List Nat → List MarkResult × List AttRecord
  | [] => ([], recs)
  | t :: ts =>
    let step := mark_attendance_core recs lec stu t
    let rest := markSeq step.2 lec stu ts
    (step.1 :: rest.1, rest.2)

/-- Like `get_or_create` but with explicit defaults, as used by the
carry-forward loop of `Lecture.start_lecture` and by the per-frame marking
of `main.py` (which defaults to present). -/
def get_or_create_with (recs : List AttRecord) (lec stu : Nat)
    (st : AttStatus) (ma : Option Nat) (fl : Bool) :
    AttRecord × Bool × List AttRecord :=
  match findRecord recs lec stu with
  | some r => (r, false, recs)
  | none =>
    let nr : AttRecord := ⟨lec, stu, st, ma, fl⟩
    (nr, true, recs ++ [nr])

end Ledger

namespace Lifecycle

/-- `Lecture.STATUS_CHOICES` (`core/models.py`). -/
inductive LecStatus where
  | scheduled
  | active
  | completed
  | cancelled
deriving Repr, DecidableEq

/-- A `Lecture` row: id, timetable id, date (absolute day number), status,
start/end timestamps and the `carried_from` self-reference. -/
structure Lecture where
  lid : Nat
  timetable : Nat
  ldate : Nat
  status : LecStatus
  started_at : Option Nat
  ended_at : Option Nat
  carried_from : Option Nat
deriving Repr, DecidableEq

/-- A `Student` row, reduced to the fields the verified paths read:
id, classroom membership and the biometric label `face_folder_name`. -/
structure StudentRow where
  sid : Nat
  classroom : Nat
  fname : String
deriving Repr, DecidableEq

/-- The persistent store the verified operations touch. -/
structure DB where
  slots : List Schedule.Slot
  lectures : List Lecture
  students : List StudentRow
  atts : List Ledger.AttRecord
deriving Repr, DecidableEq

/-- `lecture.save()`: replace the row with the same primary key. -/
def setLecture (ls : List Lecture) (l : Lecture) : List Lecture :=
  ls.map (fun x => if x.lid = l.lid then l else x)

/-- Foreign-key dereference `self.timetable`. -/
def findSlot (ss : List Schedule.Slot) (tid : Nat) : Option Schedule.Slot :=
  ss.find? (fun s => decide (s.tid = tid))

/-- The filter of `Timetable.get_previous_lecture_same_class`
(`core/models.py`, lines 139-149): same room, same classroom, same day of
week, `end_time == self.start_time`. -/
def prevSlotPred (t : Schedule.Slot) (s : Schedule.Slot) : Bool :=
  decide (s.room = t.room) && decide (s.classroom = t.classroom) &&
  decide (s.day_of_week = t.day_of_week) && decide (s.end_time = t.start_time)

/-- The `Lecture.objects.filter(timetable, date, status='completed')`
lookup inside `start_lecture`; `unique_together ['timetable', 'date']`
leaves at most one row, so the stored order stands in for `.first()`. -/
def completedLectureFor (ls : List Lecture) (ttId d : Nat) : Option Lecture :=
  (ls.filter (fun L => decide (L.timetable = ttId) && decide (L.ldate = d) &&
    decide (L.status = LecStatus.completed))).head?

/-- `Lecture.start_lecture(carry_forward)` (`core/models.py`, lines 181-226):
set active and record `started_at`; look up the immediately preceding
same-class slot; when carry-forward is allowed and that slot has a completed
lecture today, set `carried_from` and get-or-create a copy of each of its
attendance rows; otherwise get-or-create an absent row per enrolled
student.  Returns the new store and the saved lecture object. -/
def start_lecture (db : DB) (B : Lecture) (carry : Bool) (now : Nat) :
    DB × Lecture :=
  let B1 : Lecture := { B with status := LecStatus.active, started_at := some now }
  let db1 : DB := { db with lectures := setLecture db.lectures B1 }
  match findSlot db1.slots B.timetable with
  | none => (db1, B1)
  | some t =>
    let prevTT := Schedule.firstOrdered (db1.slots.filter (prevSlotPred t))
    let prevLec :=
      match prevTT with
      | some p => if carry then completedLectureFor db1.lectures p.tid B.ldate else none
      | none => none
    match prevLec with
    | some A =>
      let B2 : Lecture := { B1 with carried_from := some A.lid }
      let db2 : DB := { db1 with lectures := setLecture db1.lectures B2 }
      let prevRecs := db2.atts.filter (fun r => decide (r.lecture = A.lid))
      let newAtts := prevRecs.foldl
        (fun acc r =>
          (Ledger.get_or_create_with acc B.lid r.student r.status r.marked_at
            r.marked_by_face_recognition).2.2)
        db2.atts
      ({ db2 with atts := newAtts }, B2)
    | none =>
      let studs := db1.students.filter (fun s => decide (s.classroom = t.classroom))
      let newAtts := studs.foldl
        (fun acc s => (Ledger.get_or_create acc B.lid s.sid).2.2) db1.atts
      ({ db1 with atts := newAtts }, B1)

/-- `Lecture.end_lecture` (`core/models.py`, lines 228-232): set status
completed and record `ended_at` — with no status guard. -/
def end_lecture (db : DB) (B : Lecture) (now : Nat) : DB × Lecture :=
  let B1 : Lecture := { B with status := LecStatus.completed, ended_at := some now }
  ({ db with lectures := setLecture db.lectures B1 }, B1)

/-- `api_end_lecture` (`core/views.py`, lines 529-552): look the lecture up
by id with no status filter, call `end_lecture` unconditionally, and report
the (total, present) counts. -/
def api_end_lecture (db : DB) (lecId now : Nat) : DB × Option (Nat × Nat) :=
  match db.lectures.find? (fun L => decide (L.lid = lecId)) with
  | none => (db, none)
  | some L =>
    let out := end_lecture db L now
    let total := (out.1.atts.filter (fun r => decide (r.lecture = lecId))).length
    let present := (out.1.atts.filter (fun r => decide (r.lecture = lecId) &&
      decide (r.status = Ledger.AttStatus.present))).length
    (out.1, some (total, present))

/-- `teacher_end_lecture` (`core/views.py`, lines 757-773): ends the
lecture only when its status is active, otherwise reports the status and
leaves the store untouched. -/
def teacher_end_lecture (db : DB) (lecId now : Nat) : DB :=
  match db.lectures.find? (fun L => decide (L.lid = lecId)) with
  | none => db
  | some L =>
    if L.status = LecStatus.active then (end_lecture db L now).1 else db

/-- A back-to-back pair of slots in room 1 for classroom 1 (9:00-10:00 and
10:00-11:00), used as a concrete carry-forward scenario. -/
def slotPrev : Schedule.Slot := Schedule.Slot.mk 1 1 1 0 540 600 true none

/-- The later slot of the back-to-back pair. -/
def slotNext : Schedule.Slot := Schedule.Slot.mk 2 1 1 0 600 660 true none

/-- A completed lecture of `slotPrev` on day 7 with recorded attendance. -/
def lectureA : Lecture :=
  Lecture.mk 10 1 7 LecStatus.completed (some 545) (some 599) none

/-- A scheduled lecture of `slotNext` on day 7, about to start. -/
def lectureB : Lecture := Lecture.mk 20 2 7 LecStatus.scheduled none none none

/-- A concrete store for the carry-forward scenario: lecture 10 completed
with one present and one absent record, lecture 20 scheduled next door in
time. -/
def carryDB : DB :=
  DB.mk [slotPrev, slotNext] [lectureA, lectureB] []
    [Ledger.AttRecord.mk 10 100 Ledger.AttStatus.present (some 550) true,
     Ledger.AttRecord.mk 10 101 Ledger.AttStatus.absent none false]

/-- The claim that invoking the end operation on a non-active lecture
reports its status and leaves its status, `started_at` and `ended_at`
unchanged. -/
def endNoMutationClaim : Prop :=
  ∀ (db : DB) (lecId now : Nat) (L : Lecture),
    db.lectures.find? (fun x => decide (x.lid = lecId)) = some L →
    L.status ≠ LecStatus.active →
    ∀ L2 : Lecture,
      (api_end_lecture db lecId now).1.lectures.find?
        (fun x => decide (x.lid = lecId)) = some L2 →
      L2.status = L.status ∧ L2.started_at = L.started_at ∧
      L2.ended_at = L.ended_at

end Lifecycle

namespace Monitor

/-- The result dictionary of `mark_attendance_for_face` in `main.py` as the
loop reads it: `get('success')` and `get('already_marked')` (a failure
dictionary has no `already_marked` key, read back as falsy). -/
structure FRes where
  success : Bool
  already_marked : Bool
deriving Repr, DecidableEq

/-- Observable actions of the per-frame loop, recorded in call order:
a liveness evaluation with its verdict, or an attendance mutation attempt
for an identity label.  `markPresentCall` is emitted exactly when
`mark_attendance_for_face` reaches its `Attendance.objects.get_or_create`;
`livenessEval` would be emitted by a call into
`AntiSpoofingDetector.check_liveness`. -/
inductive Event where
  | livenessEval (isLive : Bool)
  | markPresentCall (name : String)
deriving Repr, DecidableEq

/-- `mark_attendance_for_face` of `run_face_recognition` (`main.py`, lines
137-170): drop falsy or Unknown names, resolve the label to a student,
reject a student from another classroom, otherwise get-or-create the
attendance row (defaults: present, marked now, by recognition) and promote
a stale non-present row.  Returns the result dictionary (`none` models the
Python `None`), the updated table and the events this call emitted. -/
def mark_attendance_for_face (students : List Lifecycle.StudentRow)
    (lecId lecClassroom : Nat) (name : String) (now : Nat)
    (atts : List Ledger.AttRecord) :
    Option FRes × List Ledger.AttRecord × List Event :=
  if name = "" ∨ name = "Unknown" then (none, atts, [])
  else
    match students.find? (fun s => decide (s.fname = name)) with
    | none => (some ⟨false, false⟩, atts, [])
    | some s =>
      if s.classroom ≠ lecClassroom then (some ⟨false, false⟩, atts, [])
      else
        let gc := Ledger.get_or_create_with atts lecId s.sid
          Ledger.AttStatus.present (some now) true
        let out : FRes × List Ledger.AttRecord :=
          if ¬ gc.2.1 ∧ gc.1.status ≠ Ledger.AttStatus.present then
            (⟨true, false⟩, Ledger.markInList gc.2.2 lecId s.sid now)
          else if gc.2.1 then (⟨true, false⟩, gc.2.2)
          else (⟨true, true⟩, gc.2.2)
        (some out.1, out.2, [Event.markPresentCall name])

/-- The in-memory session state of `run_face_recognition`: the
`marked_in_session` dedup set, the attendance table, and the recorded
event trace. -/
structure MonState where
  marked : List String
  atts : List Ledger.AttRecord
  events : List Event
deriving Repr, DecidableEq

/-- The body of the per-name loop of `run_face_recognition` (`main.py`,
lines 209-222): skip names already in the session set and the Unknown
label; otherwise call `mark_attendance_for_face` and add the name to the
session set whether it succeeded or was rejected (both branches add). -/
def processName (students : List Lifecycle.StudentRow)
    (lecId lecClassroom now : Nat) (st : MonState) (name : String) :
    MonState :=
  if name ∉ st.marked ∧ name ≠ "Unknown" then
    let out := mark_attendance_for_face students lecId lecClassroom name now st.atts
    match out.1 with
    | some res =>
      if res.success then
        { marked := st.marked ++ [name], atts := out.2.1,
          events := st.events ++ out.2.2 }
      else
        { marked := st.marked ++ [name], atts := out.2.1,
          events := st.events ++ out.2.2 }
    | none => { st with atts := out.2.1, events := st.events ++ out.2.2 }
  else st

/-- One camera frame: the loop `for name in recognized`. -/
def processFrame (students : List Lifecycle.StudentRow)
    (lecId lecClassroom now : Nat) (st : MonState) (names : List String) :
    MonState :=
  names.foldl (processName students lecId lecClassroom now) st

/-- A whole lecture session: successive frames against the same active
lecture, starting from a cleared dedup set and empty trace. -/
def processFrames (students : List Lifecycle.StudentRow)
    (lecId lecClassroom now : Nat) (st : MonState)
    (frames : List (List String)) : MonState :=
  frames.foldl (processFrame students lecId lecClassroom now) st

/-- Session-start state: `marked_in_session.clear()` and no events yet. -/
def sessionInit (atts : List Ledger.AttRecord) : MonState :=
  { marked := [], atts := atts, events := [] }

/-- How many attendance mutations the trace holds for one identity. -/
def countMark (evs : List Event) (name : String) : Nat :=
  (evs.filter (fun e => decide (e = Event.markPresentCall name))).length

/-- Whether an event is an attendance mutation (as opposed to a liveness
evaluation). -/
def isMarkEvent : Event → Bool
  | Event.markPresentCall _ => true
  | Event.livenessEval _ => false

/-- Scans the trace and checks that every `markPresentCall` is preceded by
some `livenessEval` that returned true (the accumulator remembers whether
a passing liveness verdict has been seen). -/
def livenessGatedFrom : List Event → Bool → Bool
  | [], _ => true
  | Event.livenessEval b :: r, seen => livenessGatedFrom r (seen || b)
  | Event.markPresentCall _ :: r, seen => seen && livenessGatedFrom r seen

/-- Every attendance mutation in the trace happens after a passing
liveness evaluation. -/
def livenessGated (evs : List Event) : Bool := livenessGatedFrom evs false

/-- The claim that in every session of the per-frame loop, each attendance
mutation is preceded by a liveness evaluation that returned live. -/
def livenessGateClaim : Prop :=
  ∀ (students : List Lifecycle.StudentRow) (lecId lecClassroom now : Nat)
    (atts : List Ledger.AttRecord) (frames : List (List String)),
    livenessGated
      (processFrames students lecId lecClassroom now (sessionInit atts)
        frames).events = true

end Monitor

namespace ConflictForm

/-- Outcome of `ScheduleExtraLectureForm.clean` (`core/forms.py`): passes,
or raises one of its `ValidationError`s — the time-order error, the
past-date error, or a conflict naming the clashing slot. -/
inductive FormResult where
  | ok
  | invalidTimes
  | pastDate
  | conflict (s : Schedule.Slot)
deriving Repr, DecidableEq

/-- A proposed extra lecture: the cleaned form fields. -/
structure Candidate where
  classroom : Nat
  room : Nat
  cdate : Nat
  start_time : Nat
  end_time : Nat
deriving Repr, DecidableEq

/-- `CancelledLecture.objects.filter(date=...).values_list('timetable_id')`. -/
def cancelledIds (cls : List Schedule.Cancelled) (d : Nat) : List Nat :=
  (cls.filter (fun c => decide (c.cdate = d))).map (fun c => c.timetable)

/-- The interval-overlap test the form uses on every branch:
`start_time__lt=end_time, end_time__gt=start_time`. -/
def overlapB (t : Schedule.Slot) (c : Candidate) : Bool :=
  decide (t.start_time < c.end_time) && decide (c.start_time < t.end_time)

/-- The recurring-classroom conflict filter of the form: same classroom,
candidate date's weekday, recurring, overlapping, not cancelled on the
date. -/
def recurClsPred (cls : List Schedule.Cancelled) (c : Candidate)
    (t : Schedule.Slot) : Bool :=
  decide (t.classroom = c.classroom) &&
  decide (t.day_of_week = Schedule.weekday c.cdate) &&
  t.is_recurring && overlapB t c &&
  !(decide (t.tid ∈ cancelledIds cls c.cdate))

/-- The extra-classroom conflict filter: same classroom, non-recurring,
exact candidate date, overlapping (no cancellation exclusion). -/
def extraClsPred (c : Candidate) (t : Schedule.Slot) : Bool :=
  decide (t.classroom = c.classroom) && !t.is_recurring &&
  decide (t.extra_date = some c.cdate) && overlapB t c

/-- The recurring-room conflict filter: same room, candidate date's
weekday, recurring, overlapping, not cancelled on the date. -/
def recurRoomPred (cls : List Schedule.Cancelled) (c : Candidate)
    (t : Schedule.Slot) : Bool :=
  decide (t.room = c.room) &&
  decide (t.day_of_week = Schedule.weekday c.cdate) &&
  t.is_recurring && overlapB t c &&
  !(decide (t.tid ∈ cancelledIds cls c.cdate))

/-- The extra-room conflict filter: same room, non-recurring, exact
candidate date, overlapping (no cancellation exclusion). -/
def extraRoomPred (c : Candidate) (t : Schedule.Slot) : Bool :=
  decide (t.room = c.room) && !t.is_recurring &&
  decide (t.extra_date = some c.cdate) && overlapB t c

/-- `ScheduleExtraLectureForm.clean` (`core/forms.py`, lines 121-213):
reject end-before-start and past dates; then reject the first conflicting
slot among, in order: recurring classroom clashes on the candidate date's
weekday (excluding slots cancelled on that date), extra classroom clashes
on that exact date, recurring room clashes (excluding cancelled), and
extra room clashes. -/
def cleanExtraLecture (tts : List Schedule.Slot)
    (cls : List Schedule.Cancelled) (today : Nat) (c : Candidate) :
    FormResult :=
  if c.end_time ≤ c.start_time then FormResult.invalidTimes
  else if c.cdate < today then FormResult.pastDate
  else
    match Schedule.firstOrdered (tts.filter (recurClsPred cls c)) with
    | some t => FormResult.conflict t
    | none =>
      match Schedule.firstOrdered (tts.filter (extraClsPred c)) with
      | some t => FormResult.conflict t
      | none =>
        match Schedule.firstOrdered (tts.filter (recurRoomPred cls c)) with
        | some t => FormResult.conflict t
        | none =>
          match Schedule.firstOrdered (tts.filter (extraRoomPred c)) with
          | some t => FormResult.conflict t
          | none => FormResult.ok

/-- Whether a slot applies on a date: by weekday for a recurring slot, by
exact date for an extra slot (the spec's effective-date notion). -/
def effectiveOnB (t : Schedule.Slot) (d : Nat) : Bool :=
  if t.is_recurring then decide (t.day_of_week = Schedule.weekday d)
  else decide (t.extra_date = some d)

/-- The spec's notion of a conflicting slot: same classroom or room,
effective on the candidate's date, not cancelled on it, with overlapping
intervals. -/
def specSlotB (cls : List Schedule.Cancelled) (c : Candidate)
    (t : Schedule.Slot) : Bool :=
  (decide (t.classroom = c.classroom) || decide (t.room = c.room)) &&
  effectiveOnB t c.cdate && !(Schedule.isCancelledOn cls t c.cdate) &&
  overlapB t c

/-- The spec's conflict notion: some slot of the table conflicts. -/
def specConflictB (tts : List Schedule.Slot) (cls : List Schedule.Cancelled)
    (c : Candidate) : Bool :=
  tts.any (specSlotB cls c)

end ConflictForm

/-! ## Theorems -/

namespace AntiSpoof

/-- C8: for every face image large enough to analyze and every enabled
configuration, the liveness verdict holds exactly when the number of
failed checks is strictly below `min_checks_to_fail`, and confidence
equals `(5 - failedCheckCount) / 5`. -/
theorem check_liveness_voting (cfg : Config) (f : FaceFeatures)
    (hen : cfg.enabled = true) (hh : 50 ≤ f.height) (hw : 50 ≤ f.width) :
    ((check_liveness cfg f).is_live = true ↔
      numFailed cfg f < cfg.min_checks_to_fail) ∧
    (check_liveness cfg f).confidence =
      ((5 : ℚ) - (numFailed cfg f : ℚ)) / 5 := by
  have hsz : ¬ (f.height < 50 ∨ f.width < 50) := by omega
  simp [check_liveness, hen, hsz, numFailed]

/-- Witness for C8: an enabled default configuration and a 100x100 face
with clean features. -/
theorem check_liveness_voting_witness :
    defaultConfig.enabled = true ∧
    50 ≤ (FaceFeatures.mk 100 100 0 0 0 0 0 100 100).height ∧
    50 ≤ (FaceFeatures.mk 100 100 0 0 0 0 0 100 100).width ∧
    (((check_liveness defaultConfig (FaceFeatures.mk 100 100 0 0 0 0 0 100 100)).is_live = true ↔
      numFailed defaultConfig (FaceFeatures.mk 100 100 0 0 0 0 0 100 100) <
        defaultConfig.min_checks_to_fail) ∧
     (check_liveness defaultConfig (FaceFeatures.mk 100 100 0 0 0 0 0 100 100)).confidence =
       ((5 : ℚ) - (numFailed defaultConfig (FaceFeatures.mk 100 100 0 0 0 0 0 100 100) : ℚ)) / 5) :=
  ⟨rfl, by decide, by decide,
    check_liveness_voting defaultConfig (FaceFeatures.mk 100 100 0 0 0 0 0 100 100)
      rfl (by decide) (by decide)⟩

/-- C9: under the default configuration, a sufficiently large face with
exactly one failed check is reported live with confidence 0.8 and spoof
type none, and a spoof verdict requires at least two failed checks. -/
theorem default_single_fail_live (f : FaceFeatures)
    (hh : 50 ≤ f.height) (hw : 50 ≤ f.width) :
    (numFailed defaultConfig f = 1 →
      (check_liveness defaultConfig f).is_live = true ∧
      (check_liveness defaultConfig f).confidence = (8 : ℚ) / 10 ∧
      (check_liveness defaultConfig f).spoof_type = SpoofType.noSpoof) ∧
    ((check_liveness defaultConfig f).is_live = false ↔
      2 ≤ numFailed defaultConfig f) := by
  have hsz : ¬ (f.height < 50 ∨ f.width < 50) := by omega
  have hen : defaultConfig.enabled = true := rfl
  have hmin : defaultConfig.min_checks_to_fail = 2 := rfl
  constructor
  · intro h1
    refine ⟨?_, ?_, ?_⟩
    · simp [check_liveness, hen, hsz, hmin, numFailed] at h1 ⊢
      omega
    · simp only [check_liveness, hen, hsz, if_false]
      simp only [show ((failedChecks defaultConfig f).length : Nat) = numFailed defaultConfig f from rfl, h1]
      norm_num
    · have hlive : decide ((failedChecks defaultConfig f).length <
          defaultConfig.min_checks_to_fail) = true := by
        simp [hmin, show (failedChecks defaultConfig f).length = 1 from h1]
      simp [check_liveness, hen, hsz, hlive]
  · simp [check_liveness, hen, hsz, hmin, numFailed]

/-- Witness for C9: a 100x100 face failing only the texture check. -/
theorem default_single_fail_live_witness :
    50 ≤ (FaceFeatures.mk 100 100 0 0 0 0 0 100 0).height ∧
    50 ≤ (FaceFeatures.mk 100 100 0 0 0 0 0 100 0).width ∧
    ((numFailed defaultConfig (FaceFeatures.mk 100 100 0 0 0 0 0 100 0) = 1 →
      (check_liveness defaultConfig (FaceFeatures.mk 100 100 0 0 0 0 0 100 0)).is_live = true ∧
      (check_liveness defaultConfig (FaceFeatures.mk 100 100 0 0 0 0 0 100 0)).confidence = (8 : ℚ) / 10 ∧
      (check_liveness defaultConfig (FaceFeatures.mk 100 100 0 0 0 0 0 100 0)).spoof_type = SpoofType.noSpoof) ∧
     ((check_liveness defaultConfig (FaceFeatures.mk 100 100 0 0 0 0 0 100 0)).is_live = false ↔
      2 ≤ numFailed defaultConfig (FaceFeatures.mk 100 100 0 0 0 0 0 100 0))) :=
  ⟨by decide, by decide,
    default_single_fail_live (FaceFeatures.mk 100 100 0 0 0 0 0 100 0)
      (by decide) (by decide)⟩

end AntiSpoof

namespace Schedule

/-- The fold underlying `firstOrdered` returns one of its inputs. -/
theorem foldl_chooseEarlier_mem (ts : List Slot) :
    ∀ t : Slot, ts.foldl chooseEarlier t ∈ t :: ts := by
  induction ts with
  | nil => intro t; simp
  | cons x xs ih =>
    intro t
    simp only [List.foldl_cons]
    have h := ih (chooseEarlier t x)
    have hsub : chooseEarlier t x :: xs ⊆ t :: x :: xs := by
      intro a ha
      rcases List.mem_cons.mp ha with rfl | hxs
      · by_cases hle : slotLe t x = true
        · simp [chooseEarlier, hle]
        · simp [chooseEarlier, hle]
      · exact List.mem_cons_of_mem _ (List.mem_cons_of_mem _ hxs)
    exact hsub h

/-- `firstOrdered` returns an element of its input list. -/
theorem firstOrdered_mem {l : List Slot} {a : Slot}
    (h : firstOrdered l = some a) : a ∈ l := by
  match l with
  | [] => simp [firstOrdered] at h
  | t :: ts =>
    simp only [firstOrdered, Option.some.injEq] at h
    subst h
    exact foldl_chooseEarlier_mem ts t

/-- `firstOrdered` finds nothing only on the empty list. -/
theorem firstOrdered_eq_none {l : List Slot} :
    firstOrdered l = none ↔ l = [] := by
  cases l with
  | nil => simp [firstOrdered]
  | cons t ts => simp [firstOrdered]

/-- C5 (counterexample): a recurring slot cancelled for the query date is
still returned by `get_current_timetable_entry` — the query has no
cancellation filter — refuting the claim that a cancelled slot is never
returned. -/
theorem current_slot_ignores_cancellations : ¬ currentSlotClaim := by
  intro h
  have := h [Slot.mk 1 1 1 0 540 600 true none] [Cancelled.mk 1 7] 1
    (Instant.mk 7 550) (Slot.mk 1 1 1 0 540 600 true none) (by decide)
  exact absurd this.2.2.2 (by decide)

/-- C5 (amended): the current-slot query returns only slots whose
effective date matches the instant's date (weekday for recurring, exact
date for extra) and whose half-open [start, end) interval contains the
instant's time; cancellations are not consulted, so a slot cancelled for
that date can still be returned. -/
theorem current_slot_matches_date_and_time (tts : List Slot) (room : Nat)
    (now : Instant) (s : Slot)
    (h : get_current_timetable_entry tts room now = some s) :
    (if s.is_recurring then s.day_of_week = weekday now.iday
     else s.extra_date = some now.iday) ∧
    s.start_time ≤ now.itime ∧ now.itime < s.end_time := by
  have hmem : s ∈ tts.filter (currentEntryPred room now) :=
    firstOrdered_mem h
  have hpred : currentEntryPred room now s = true :=
    (List.mem_filter.mp hmem).2
  simp only [currentEntryPred, Bool.and_eq_true, Bool.or_eq_true,
    decide_eq_true_eq, Bool.not_eq_true'] at hpred
  obtain ⟨⟨hdate, hstart⟩, hend⟩ := hpred
  refine ⟨?_, hstart, hend⟩
  rcases hdate with ⟨⟨_, hd⟩, hr⟩ | ⟨⟨_, hnr⟩, hx⟩
  · simp only [hr, if_true]
    exact hd
  · simp [hnr]
    exact hx

/-- Witness for the amended C5: a recurring slot matching the weekday and
containing the query time. -/
theorem current_slot_matches_witness :
    get_current_timetable_entry [Slot.mk 1 1 1 0 540 600 true none] 1
      (Instant.mk 7 550) = some (Slot.mk 1 1 1 0 540 600 true none) ∧
    ((if (Slot.mk 1 1 1 0 540 600 true none).is_recurring then
        (Slot.mk 1 1 1 0 540 600 true none).day_of_week = weekday 7
      else (Slot.mk 1 1 1 0 540 600 true none).extra_date = some 7) ∧
     (Slot.mk 1 1 1 0 540 600 true none).start_time ≤ 550 ∧
     550 < (Slot.mk 1 1 1 0 540 600 true none).end_time) :=
  ⟨by decide,
    current_slot_matches_date_and_time [Slot.mk 1 1 1 0 540 600 true none] 1
      (Instant.mk 7 550) (Slot.mk 1 1 1 0 540 600 true none) (by decide)⟩

/-- C10: at an instant equal to a slot's end time, the classroom-based
lookup of `api_start_lecture` still matches the slot (inclusive end
bound); at a back-to-back boundary both slots match and the lookup
selects the earlier slot, while the room monitoring loop's predicate
excludes the ending slot (half-open interval). -/
theorem api_start_lecture_inclusive_boundary
    (s1 s2 : Slot) (cid room d tm : Nat)
    (h1c : s1.classroom = cid) (h2c : s2.classroom = cid)
    (h1d : s1.day_of_week = weekday d) (h2d : s2.day_of_week = weekday d)
    (h1e : s1.end_time = tm) (h2s : s2.start_time = tm)
    (h1s : s1.start_time ≤ tm) (h2e : tm ≤ s2.end_time)
    (h1r : s1.room = room) :
    classroomEntryPred cid (Instant.mk d tm) s1 = true ∧
    classroomEntryPred cid (Instant.mk d tm) s2 = true ∧
    apiClassroomLookup [s1, s2] cid (Instant.mk d tm) = some s1 ∧
    currentEntryPred room (Instant.mk d tm) s1 = false := by
  have hp1 : classroomEntryPred cid (Instant.mk d tm) s1 = true := by
    simp [classroomEntryPred, h1c, h1d, h1s, h1e]
  have hp2 : classroomEntryPred cid (Instant.mk d tm) s2 = true := by
    simp [classroomEntryPred, h2c, h2d, h2s, h2e]
  refine ⟨hp1, hp2, ?_, ?_⟩
  · have hle : slotLe s1 s2 = true := by
      simp [slotLe, h1d, h2d, h2s]
      omega
    simp [apiClassroomLookup, hp1, hp2, firstOrdered, chooseEarlier, hle]
  · simp [currentEntryPred, h1e]

/-- Witness for C10: back-to-back recurring slots 9:00-10:00 and
10:00-11:00 queried at 10:00 sharp. -/
theorem api_start_lecture_inclusive_boundary_witness :
    (Slot.mk 1 1 1 0 540 600 true none).classroom = 1 ∧
    (Slot.mk 2 1 1 0 600 660 true none).classroom = 1 ∧
    (Slot.mk 1 1 1 0 540 600 true none).day_of_week = weekday 7 ∧
    (Slot.mk 2 1 1 0 600 660 true none).day_of_week = weekday 7 ∧
    (Slot.mk 1 1 1 0 540 600 true none).end_time = 600 ∧
    (Slot.mk 2 1 1 0 600 660 true none).start_time = 600 ∧
    (Slot.mk 1 1 1 0 540 600 true none).start_time ≤ 600 ∧
    600 ≤ (Slot.mk 2 1 1 0 600 660 true none).end_time ∧
    (Slot.mk 1 1 1 0 540 600 true none).room = 1 ∧
    (classroomEntryPred 1 (Instant.mk 7 600) (Slot.mk 1 1 1 0 540 600 true none) = true ∧
     classroomEntryPred 1 (Instant.mk 7 600) (Slot.mk 2 1 1 0 600 660 true none) = true ∧
     apiClassroomLookup [Slot.mk 1 1 1 0 540 600 true none,
       Slot.mk 2 1 1 0 600 660 true none] 1 (Instant.mk 7 600) =
       some (Slot.mk 1 1 1 0 540 600 true none) ∧
     currentEntryPred 1 (Instant.mk 7 600) (Slot.mk 1 1 1 0 540 600 true none) = false) :=
  ⟨rfl, rfl, by decide, by decide, rfl, rfl, by decide, by decide, rfl,
    api_start_lecture_inclusive_boundary
      (Slot.mk 1 1 1 0 540 600 true none) (Slot.mk 2 1 1 0 600 660 true none)
      1 1 7 600 rfl rfl (by decide) (by decide) rfl rfl (by decide)
      (by decide) rfl⟩

end Schedule

namespace Ledger

/-- Looking up a pair in an extended table falls through to the extension
when the original table has no row for it. -/
theorem findRecord_append_none (recs l2 : List AttRecord) (lec stu : Nat)
    (h : findRecord recs lec stu = none) :
    findRecord (recs ++ l2) lec stu = findRecord l2 lec stu := by
  induction recs with
  | nil => simp
  | cons r rs ih =>
    simp only [findRecord, List.find?] at h ⊢
    cases hp : (decide (r.lecture = lec) && decide (r.student = stu)) with
    | true => rw [hp] at h; simp at h
    | false =>
      rw [hp] at h
      simp only [List.cons_append, List.find?, hp]
      exact ih h

/-- After `mark_present`, the row for the pair is the canonical present
row (provided some row for the pair existed). -/
theorem findRecord_markInList (recs : List AttRecord) (lec stu now : Nat)
    (h : (findRecord recs lec stu).isSome = true) :
    findRecord (markInList recs lec stu now) lec stu =
      some ⟨lec, stu, AttStatus.present, some now, true⟩ := by
  induction recs with
  | nil => simp [findRecord] at h
  | cons r rs ih =>
    cases hp : (decide (r.lecture = lec) && decide (r.student = stu)) with
    | true =>
      have hps := hp
      simp only [Bool.and_eq_true, decide_eq_true_eq] at hps
      simp only [markInList, hp, if_true]
      simp [findRecord, List.find?, hps.1, hps.2]
    | false =>
      have hh : (findRecord rs lec stu).isSome = true := by
        simp only [findRecord, List.find?, hp] at h
        exact h
      simp only [markInList, hp, if_false, Bool.false_eq_true]
      simp only [findRecord, List.find?, hp]
      exact ih hh

/-- A biometric mark call on a pair whose row is already present reports
already-marked and leaves the table untouched. -/
theorem mark_core_already (recs : List AttRecord) (lec stu now : Nat)
    (h : recordPresent recs lec stu = true) :
    mark_attendance_core recs lec stu now = (⟨true, true⟩, recs) := by
  cases hf : findRecord recs lec stu with
  | none => simp [recordPresent, hf] at h
  | some r =>
    have hst : r.status = AttStatus.present := by
      simp [recordPresent, hf] at h
      exact h
    simp [mark_attendance_core, get_or_create, hf, hst]

/-- A biometric mark call on a pair not currently present reports a fresh
mark and leaves the pair's row present. -/
theorem mark_core_first (recs : List AttRecord) (lec stu now : Nat)
    (h : recordPresent recs lec stu = false) :
    (mark_attendance_core recs lec stu now).1 = ⟨true, false⟩ ∧
    recordPresent (mark_attendance_core recs lec stu now).2 lec stu = true := by
  cases hf : findRecord recs lec stu with
  | none =>
    have hfind : findRecord (recs ++ [(⟨lec, stu, AttStatus.absent, none, false⟩ : AttRecord)]) lec stu =
        some ⟨lec, stu, AttStatus.absent, none, false⟩ := by
      rw [findRecord_append_none recs _ lec stu hf]
      simp [findRecord, List.find?]
    have hsome : (findRecord (recs ++ [(⟨lec, stu, AttStatus.absent, none, false⟩ : AttRecord)]) lec stu).isSome = true := by
      rw [hfind]; rfl
    have hmark := findRecord_markInList _ lec stu now hsome
    constructor
    · simp [mark_attendance_core, get_or_create, hf]
    · simp only [mark_attendance_core, get_or_create, hf]
      simp [recordPresent, hmark]
  | some r =>
    have hst : r.status ≠ AttStatus.present := by
      simp [recordPresent, hf] at h
      exact h
    have hsome : (findRecord recs lec stu).isSome = true := by
      rw [hf]; rfl
    have hmark := findRecord_markInList recs lec stu now hsome
    constructor
    · simp [mark_attendance_core, get_or_create, hf, hst]
    · simp only [mark_attendance_core, get_or_create, hf]
      simp [hst, recordPresent, hmark]

/-- Once the pair's row is present, a whole sequence of further biometric
mark calls reports already-marked every time and never changes the
table. -/
theorem markSeq_after_present (recs : List AttRecord) (lec stu : Nat)
    (h : recordPresent recs lec stu = true) :
    ∀ ts : List Nat,
      markSeq recs lec stu ts =
        (ts.map (fun _ => (⟨true, true⟩ : MarkResult)), recs) := by
  intro ts
  induction ts with
  | nil => rfl
  | cons t ts ih =>
    simp only [markSeq, mark_core_already recs lec stu t h, ih, List.map_cons]

/-- C1: over any sequence of biometric mark calls on one (lecture,
student) pair, the row ends present; the first call is status-changing
exactly when the row was not already present (reporting
already_marked=false); a call on an already-present row changes nothing;
and every later call reports already_marked=true and leaves the table
exactly as the first call left it — a present row is never transitioned
away. -/
theorem mark_attendance_idempotent (recs : List AttRecord) (lec stu t : Nat)
    (ts : List Nat) :
    recordPresent (mark_attendance_core recs lec stu t).2 lec stu = true ∧
    ((mark_attendance_core recs lec stu t).1.already_marked = false ↔
      recordPresent recs lec stu = false) ∧
    (recordPresent recs lec stu = true →
      (mark_attendance_core recs lec stu t).2 = recs) ∧
    (markSeq (mark_attendance_core recs lec stu t).2 lec stu ts).1 =
      ts.map (fun _ => (⟨true, true⟩ : MarkResult)) ∧
    (markSeq (mark_attendance_core recs lec stu t).2 lec stu ts).2 =
      (mark_attendance_core recs lec stu t).2 := by
  by_cases h : recordPresent recs lec stu = true
  · have hstep := mark_core_already recs lec stu t h
    have hseq := markSeq_after_present recs lec stu h ts
    rw [hstep]
    refine ⟨h, ?_, fun _ => rfl, ?_, ?_⟩
    · simp [h]
    · simp [hseq]
    · simp [hseq]
  · have h0 : recordPresent recs lec stu = false := by
      simpa using h
    have hstep := mark_core_first recs lec stu t h0
    have hseq := markSeq_after_present _ lec stu hstep.2 ts
    refine ⟨hstep.2, ?_, ?_, ?_, ?_⟩
    · simp [hstep.1, h0]
    · intro hcontra; exact absurd hcontra h
    · simp [hseq]
    · simp [hseq]

/-- Witness for C1: three calls on an initially empty table. -/
theorem mark_attendance_idempotent_witness :
    recordPresent (mark_attendance_core [] 1 2 10).2 1 2 = true ∧
    ((mark_attendance_core [] 1 2 10).1.already_marked = false ↔
      recordPresent [] 1 2 = false) ∧
    (recordPresent [] 1 2 = true →
      (mark_attendance_core [] 1 2 10).2 = []) ∧
    (markSeq (mark_attendance_core [] 1 2 10).2 1 2 [11, 12]).1 =
      [11, 12].map (fun _ => (⟨true, true⟩ : MarkResult)) ∧
    (markSeq (mark_attendance_core [] 1 2 10).2 1 2 [11, 12]).2 =
      (mark_attendance_core [] 1 2 10).2 :=
  mark_attendance_idempotent [] 1 2 10 [11, 12]

/-- `get_or_create_with` never removes rows. -/
theorem mem_get_or_create_with (recs : List AttRecord) (lec stu : Nat)
    (st : AttStatus) (ma : Option Nat) (fl : Bool) (r : AttRecord)
    (h : r ∈ recs) : r ∈ (get_or_create_with recs lec stu st ma fl).2.2 := by
  unfold get_or_create_with
  cases hf : findRecord recs lec stu with
  | some r2 => exact h
  | none => exact List.mem_append_left _ h

/-- The carry-forward fold only appends rows. -/
theorem mem_copy_fold (rs : List AttRecord) (bId : Nat) :
    ∀ (acc : List AttRecord) (r : AttRecord), r ∈ acc →
      r ∈ rs.foldl (fun a x => (get_or_create_with a bId x.student x.status
        x.marked_at x.marked_by_face_recognition).2.2) acc := by
  induction rs with
  | nil => intro acc r h; exact h
  | cons x xs ih =>
    intro acc r h
    simp only [List.foldl_cons]
    exact ih _ r (mem_get_or_create_with acc bId x.student x.status
      x.marked_at x.marked_by_face_recognition r h)

/-- The carry-forward fold creates, for every source row, an exact copy
keyed to the target lecture — provided the target has no rows for those
students yet and the source rows have pairwise distinct students. -/
theorem copy_fold_creates (bId : Nat) (rs : List AttRecord) :
    ∀ (acc : List AttRecord),
      (∀ r ∈ rs, findRecord acc bId r.student = none) →
      rs.Pairwise (fun a b => a.student ≠ b.student) →
      ∀ r ∈ rs,
        (⟨bId, r.student, r.status, r.marked_at,
          r.marked_by_face_recognition⟩ : AttRecord) ∈
          rs.foldl (fun a x => (get_or_create_with a bId x.student x.status
            x.marked_at x.marked_by_face_recognition).2.2) acc := by
  induction rs with
  | nil => intro acc _ _ r h; simp at h
  | cons x xs ih =>
    intro acc hnone hpair r hr
    simp only [List.foldl_cons]
    have hx := hnone x (List.mem_cons_self x xs)
    have hacc2 : (get_or_create_with acc bId x.student x.status x.marked_at
        x.marked_by_face_recognition).2.2 =
        acc ++ [⟨bId, x.student, x.status, x.marked_at,
          x.marked_by_face_recognition⟩] := by
      unfold get_or_create_with
      rw [hx]
    rcases List.mem_cons.mp hr with rfl | hxs
    · rw [hacc2]
      exact mem_copy_fold xs bId _ _ (List.mem_append_right _ (by simp))
    · rw [hacc2]
      apply ih _ ?_ (List.pairwise_cons.mp hpair).2 r hxs
      intro r2 hr2
      have h0 := hnone r2 (List.mem_cons_of_mem _ hr2)
      rw [findRecord_append_none _ _ _ _ h0]
      have hne : x.student ≠ r2.student :=
        (List.pairwise_cons.mp hpair).1 r2 hr2
      simp [findRecord, List.find?, hne]

end Ledger

namespace Lifecycle

/-- Saving a row with the looked-up id makes the lookup return the saved
row. -/
theorem find_setLecture (ls : List Lecture) (Bn : Lecture) (i : Nat)
    (hi : Bn.lid = i)
    (h : (ls.find? (fun x => decide (x.lid = i))).isSome = true) :
    (setLecture ls Bn).find? (fun x => decide (x.lid = i)) = some Bn := by
  induction ls with
  | nil => simp at h
  | cons x xs ih =>
    by_cases hx : x.lid = i
    · have hcond : x.lid = Bn.lid := by rw [hi]; exact hx
      simp [setLecture, hcond, List.find?, hi]
    · have hcond : ¬ x.lid = Bn.lid := by rw [hi]; exact hx
      have htail : (xs.find? (fun x => decide (x.lid = i))).isSome = true := by
        simp only [List.find?] at h
        rw [decide_eq_false hx] at h
        exact h
      simp only [setLecture, List.map_cons, if_neg hcond, List.find?,
        decide_eq_false hx]
      exact ih htail

/-- C7 (counterexample): ending a scheduled (non-active) lecture through
the API mutates it to completed, refuting the claim that a non-active
lecture is reported and left unchanged. -/
theorem end_non_active_mutates : ¬ endNoMutationClaim := by
  intro h
  have := h
    (DB.mk [] [Lecture.mk 1 1 7 LecStatus.scheduled none none none] [] [])
    1 99 (Lecture.mk 1 1 7 LecStatus.scheduled none none none)
    (by decide) (by decide)
    (Lecture.mk 1 1 7 LecStatus.completed none (some 99) none)
    (by decide)
  exact absurd this.1 (by decide)

/-- C7 (amended): `api_end_lecture` performs the lookup with no status
filter and `Lecture.end_lecture` has no guard, so a lecture of any status
— non-active included — is set to completed with `ended_at` stamped; the
status guard that reports without mutating exists only in the
teacher-facing `teacher_end_lecture` view. -/
theorem api_end_lecture_mutates (db : DB) (lecId now : Nat) (L : Lecture)
    (h : db.lectures.find? (fun x => decide (x.lid = lecId)) = some L) :
    (api_end_lecture db lecId now).1.lectures.find?
        (fun x => decide (x.lid = lecId)) =
      some { L with status := LecStatus.completed, ended_at := some now } ∧
    (L.status ≠ LecStatus.active → teacher_end_lecture db lecId now = db) := by
  have hlid : L.lid = lecId := by
    have := List.find?_some h
    simpa using this
  constructor
  · unfold api_end_lecture
    rw [h]
    simp only [end_lecture]
    apply find_setLecture
    · exact hlid
    · rw [h]; rfl
  · intro hna
    unfold teacher_end_lecture
    rw [h]
    simp [hna]

/-- Witness for the amended C7: a single scheduled lecture ended via the
API. -/
theorem api_end_lecture_mutates_witness :
    (DB.mk [] [Lecture.mk 1 1 7 LecStatus.scheduled none none none] [] []).lectures.find?
        (fun x => decide (x.lid = 1)) =
      some (Lecture.mk 1 1 7 LecStatus.scheduled none none none) ∧
    ((api_end_lecture
        (DB.mk [] [Lecture.mk 1 1 7 LecStatus.scheduled none none none] [] [])
        1 99).1.lectures.find? (fun x => decide (x.lid = 1)) =
      some (Lecture.mk 1 1 7 LecStatus.completed none (some 99) none) ∧
     ((Lecture.mk 1 1 7 LecStatus.scheduled none none none).status ≠
        LecStatus.active →
      teacher_end_lecture
        (DB.mk [] [Lecture.mk 1 1 7 LecStatus.scheduled none none none] [] [])
        1 99 =
      DB.mk [] [Lecture.mk 1 1 7 LecStatus.scheduled none none none] [] [])) :=
  ⟨by decide,
    api_end_lecture_mutates
      (DB.mk [] [Lecture.mk 1 1 7 LecStatus.scheduled none none none] [] [])
      1 99 (Lecture.mk 1 1 7 LecStatus.scheduled none none none) (by decide)⟩

/-- Saving a row leaves a filter untouched when neither the old rows with
that id nor the new row pass the filter. -/
theorem filter_setLecture (ls : List Lecture) (Bn : Lecture)
    (p : Lecture → Bool)
    (hold : ∀ x ∈ ls, x.lid = Bn.lid → p x = false)
    (hnew : p Bn = false) :
    (setLecture ls Bn).filter p = ls.filter p := by
  induction ls with
  | nil => rfl
  | cons x xs ih =>
    have htail : (setLecture xs Bn).filter p = xs.filter p :=
      ih (fun y hy hly => hold y (List.mem_cons_of_mem _ hy) hly)
    by_cases hx : x.lid = Bn.lid
    · have hpx : p x = false := hold x (List.mem_cons_self x xs) hx
      simp only [setLecture, List.map_cons, if_pos hx, List.filter_cons,
        hnew, hpx, Bool.false_eq_true, if_false]
      exact htail
    · simp only [setLecture, List.map_cons, if_neg hx, List.filter_cons]
      rw [show (List.map (fun x => if x.lid = Bn.lid then Bn else x) xs).filter p = xs.filter p from htail]

/-- C4: when lecture B's slot is immediately preceded (same room,
classroom and weekday, end time equal to B's start time) by a slot whose
lecture A on the same date is completed, starting B with carry-forward
allowed sets `carried_from` to A and creates, for every attendance row of
A, a row on B for the same student with identical status, marked-at time
and biometric flag — an exact copy, no record lost. -/
theorem start_lecture_carry_forward (db : DB) (B : Lecture) (now : Nat)
    (tB pTT : Schedule.Slot) (A : Lecture)
    (hB : findSlot db.slots B.timetable = some tB)
    (hprev : Schedule.firstOrdered (db.slots.filter (prevSlotPred tB)) =
      some pTT)
    (hA : completedLectureFor db.lectures pTT.tid B.ldate = some A)
    (hBsched : ∀ L ∈ db.lectures, L.lid = B.lid →
      L.status = LecStatus.scheduled)
    (hnoB : ∀ r ∈ db.atts, r.lecture ≠ B.lid)
    (hdist : (db.atts.filter (fun r => decide (r.lecture = A.lid))).Pairwise
      (fun a b => a.student ≠ b.student)) :
    (start_lecture db B true now).2.carried_from = some A.lid ∧
    ∀ r ∈ db.atts, r.lecture = A.lid →
      (⟨B.lid, r.student, r.status, r.marked_at,
        r.marked_by_face_recognition⟩ : Ledger.AttRecord) ∈
        (start_lecture db B true now).1.atts := by
  have hA1 : completedLectureFor
      (setLecture db.lectures
        { B with status := LecStatus.active, started_at := some now })
      pTT.tid B.ldate = some A := by
    unfold completedLectureFor at hA ⊢
    rw [filter_setLecture]
    · exact hA
    · intro x hx hlx
      have := hBsched x hx hlx
      simp [this]
    · simp
  constructor
  · simp [start_lecture, hB, hprev, hA1]
  · intro r hrmem hrlec
    simp only [start_lecture, hB, hprev, hA1]
    have hrfil : r ∈ db.atts.filter (fun r => decide (r.lecture = A.lid)) :=
      List.mem_filter.mpr ⟨hrmem, by simp [hrlec]⟩
    exact Ledger.copy_fold_creates B.lid
      (db.atts.filter (fun r => decide (r.lecture = A.lid))) db.atts
      (fun r2 hr2 => by
        apply List.find?_eq_none.mpr
        intro rec hrec
        have := hnoB rec hrec
        simp [this])
      hdist r hrfil

/-- Witness for C4: the concrete back-to-back scenario of `carryDB`. -/
theorem start_lecture_carry_forward_witness :
    findSlot carryDB.slots lectureB.timetable = some slotNext ∧
    Schedule.firstOrdered (carryDB.slots.filter (prevSlotPred slotNext)) =
      some slotPrev ∧
    completedLectureFor carryDB.lectures slotPrev.tid lectureB.ldate =
      some lectureA ∧
    (∀ L ∈ carryDB.lectures, L.lid = lectureB.lid →
      L.status = LecStatus.scheduled) ∧
    (∀ r ∈ carryDB.atts, r.lecture ≠ lectureB.lid) ∧
    (carryDB.atts.filter
      (fun r => decide (r.lecture = lectureA.lid))).Pairwise
      (fun a b => a.student ≠ b.student) ∧
    ((start_lecture carryDB lectureB true 601).2.carried_from =
        some lectureA.lid ∧
     ∀ r ∈ carryDB.atts, r.lecture = lectureA.lid →
      (⟨lectureB.lid, r.student, r.status, r.marked_at,
        r.marked_by_face_recognition⟩ : Ledger.AttRecord) ∈
        (start_lecture carryDB lectureB true 601).1.atts) :=
  ⟨by decide, by decide, by decide, by decide, by decide, by decide,
    start_lecture_carry_forward carryDB lectureB 601 slotNext slotPrev
      lectureA (by decide) (by decide) (by decide) (by decide) (by decide)
      (by decide)⟩

end Lifecycle

namespace Monitor

/-- A call to `mark_attendance_for_face` either emits no event, or emits
exactly one attendance mutation for its own name and reports success. -/
theorem mark_face_shape (students : List Lifecycle.StudentRow)
    (lecId lecCls : Nat) (name : String) (now : Nat)
    (atts : List Ledger.AttRecord) :
    (mark_attendance_for_face students lecId lecCls name now atts).2.2 = [] ∨
    ((mark_attendance_for_face students lecId lecCls name now atts).2.2 =
        [Event.markPresentCall name] ∧
      ∃ res, (mark_attendance_for_face students lecId lecCls name now atts).1 =
        some res) := by
  unfold mark_attendance_for_face
  split
  · exact Or.inl rfl
  · split
    · exact Or.inl rfl
    · split
      · exact Or.inl rfl
      · exact Or.inr ⟨rfl, ⟨_, rfl⟩⟩

/-- Mutation counts add over trace concatenation. -/
theorem countMark_append (a b : List Event) (name : String) :
    countMark (a ++ b) name = countMark a name + countMark b name := by
  simp [countMark, List.filter_append]

/-- One step of the per-name loop preserves the dedup invariant: at most
one mutation per identity, and a counted identity is in the session set. -/
theorem processName_inv (students : List Lifecycle.StudentRow)
    (lecId lecCls now : Nat) (st : MonState) (nm name : String)
    (h1 : countMark st.events name ≤ 1)
    (h2 : 1 ≤ countMark st.events name → name ∈ st.marked) :
    countMark (processName students lecId lecCls now st nm).events name ≤ 1 ∧
    (1 ≤ countMark (processName students lecId lecCls now st nm).events name →
      name ∈ (processName students lecId lecCls now st nm).marked) := by
  by_cases hc : nm ∉ st.marked ∧ nm ≠ "Unknown"
  · obtain ⟨hnm, hnu⟩ := hc
    simp only [processName, if_pos (show nm ∉ st.marked ∧ nm ≠ "Unknown" from ⟨hnm, hnu⟩)]
    rcases mark_face_shape students lecId lecCls nm now st.atts with he | ⟨he, res, hres⟩
    · cases ho : (mark_attendance_for_face students lecId lecCls nm now st.atts).1 with
      | none =>
        simp only [he, List.append_nil]
        exact ⟨h1, h2⟩
      | some res2 =>
        dsimp only
        rw [ite_self]
        simp only [he, List.append_nil]
        exact ⟨h1, fun hx => List.mem_append_left _ (h2 hx)⟩
    · cases ho : (mark_attendance_for_face students lecId lecCls nm now st.atts).1 with
      | none => rw [ho] at hres; exact absurd hres (by simp)
      | some res2 =>
        dsimp only
        rw [ite_self]
        simp only [he, countMark_append]
        by_cases heq : name = nm
        · subst heq
          have hzero : countMark st.events name = 0 := by
            by_contra hnz
            exact hnm (h2 (by omega))
          have hone : countMark [Event.markPresentCall name] name = 1 := by
            simp [countMark]
          rw [hzero, hone]
          exact ⟨by omega, fun _ => List.mem_append_right _ (by simp)⟩
        · have hzero : countMark [Event.markPresentCall nm] name = 0 := by
            have hne : nm ≠ name := fun hx => heq hx.symm
            simp [countMark, hne]
          rw [hzero]
          exact ⟨by omega, fun hx =>
            List.mem_append_left _ (h2 (by omega))⟩
  · simp only [processName, if_neg hc]
    exact ⟨h1, h2⟩

/-- One frame preserves the dedup invariant. -/
theorem processFrame_inv (students : List Lifecycle.StudentRow)
    (lecId lecCls now : Nat) (names : List String) :
    ∀ (st : MonState) (name : String),
      countMark st.events name ≤ 1 →
      (1 ≤ countMark st.events name → name ∈ st.marked) →
      countMark (processFrame students lecId lecCls now st names).events name ≤ 1 ∧
      (1 ≤ countMark (processFrame students lecId lecCls now st names).events name →
        name ∈ (processFrame students lecId lecCls now st names).marked) := by
  induction names with
  | nil => intro st name h1 h2; exact ⟨h1, h2⟩
  | cons x xs ih =>
    intro st name h1 h2
    have hstep := processName_inv students lecId lecCls now st x name h1 h2
    simp only [processFrame, List.foldl_cons]
    exact ih _ name hstep.1 hstep.2

/-- A whole session preserves the dedup invariant. -/
theorem processFrames_inv (students : List Lifecycle.StudentRow)
    (lecId lecCls now : Nat) (frames : List (List String)) :
    ∀ (st : MonState) (name : String),
      countMark st.events name ≤ 1 →
      (1 ≤ countMark st.events name → name ∈ st.marked) →
      countMark (processFrames students lecId lecCls now st frames).events name ≤ 1 ∧
      (1 ≤ countMark (processFrames students lecId lecCls now st frames).events name →
        name ∈ (processFrames students lecId lecCls now st frames).marked) := by
  induction frames with
  | nil => intro st name h1 h2; exact ⟨h1, h2⟩
  | cons f fs ih =>
    intro st name h1 h2
    have hstep := processFrame_inv students lecId lecCls now f st name h1 h2
    simp only [processFrames, List.foldl_cons]
    exact ih _ name hstep.1 hstep.2

/-- C6: within one lecture session the monitoring loop mutates attendance
at most once for any identity label, and once an identity is in the
session dedup set the per-name loop does not act on it at all. -/
theorem session_marks_identity_at_most_once
    (students : List Lifecycle.StudentRow) (lecId lecClassroom now : Nat)
    (atts : List Ledger.AttRecord) (frames : List (List String))
    (name : String) (st : MonState) (hmem : name ∈ st.marked) :
    countMark (processFrames students lecId lecClassroom now
        (sessionInit atts) frames).events name ≤ 1 ∧
    processName students lecId lecClassroom now st name = st := by
  constructor
  · exact (processFrames_inv students lecId lecClassroom now frames
      (sessionInit atts) name (by simp [sessionInit, countMark])
      (by simp [sessionInit, countMark])).1
  · have hng : ¬ (name ∉ st.marked ∧ name ≠ "Unknown") := by
      intro hcon; exact hcon.1 hmem
    simp only [processName, if_neg hng]

/-- Witness for C6: the same identity recognized across three frames of a
fresh session, and an identity already in the dedup set. -/
theorem session_marks_identity_at_most_once_witness :
    "alice" ∈ (MonState.mk ["alice"] [] []).marked ∧
    (countMark (processFrames [Lifecycle.StudentRow.mk 5 1 "alice"] 1 1 0
        (sessionInit []) [["alice"], ["alice"], ["alice"]]).events "alice" ≤ 1 ∧
     processName [Lifecycle.StudentRow.mk 5 1 "alice"] 1 1 0
        (MonState.mk ["alice"] [] []) "alice" = MonState.mk ["alice"] [] []) :=
  ⟨by decide,
    session_marks_identity_at_most_once [Lifecycle.StudentRow.mk 5 1 "alice"]
      1 1 0 [] [["alice"], ["alice"], ["alice"]] "alice"
      (MonState.mk ["alice"] [] []) (by decide)⟩

/-- The events a `mark_attendance_for_face` call emits are all attendance
mutations. -/
theorem mark_face_events_are_marks (students : List Lifecycle.StudentRow)
    (lecId lecCls : Nat) (name : String) (now : Nat)
    (atts : List Ledger.AttRecord) :
    ((mark_attendance_for_face students lecId lecCls name now atts).2.2).all
      isMarkEvent = true := by
  rcases mark_face_shape students lecId lecCls name now atts with he | ⟨he, _⟩ <;>
    simp [he, isMarkEvent]

/-- One step of the per-name loop emits only attendance mutations. -/
theorem processName_all_marks (students : List Lifecycle.StudentRow)
    (lecId lecCls now : Nat) (st : MonState) (nm : String)
    (h : st.events.all isMarkEvent = true) :
    (processName students lecId lecCls now st nm).events.all isMarkEvent = true := by
  by_cases hc : nm ∉ st.marked ∧ nm ≠ "Unknown"
  · simp only [processName, if_pos hc]
    cases ho : (mark_attendance_for_face students lecId lecCls nm now st.atts).1 with
    | none =>
      simp [List.all_append, h,
        mark_face_events_are_marks students lecId lecCls nm now st.atts]
    | some res =>
      dsimp only
      rw [ite_self]
      simp [List.all_append, h,
        mark_face_events_are_marks students lecId lecCls nm now st.atts]
  · simp only [processName, if_neg hc]
    exact h

/-- C2 (amended): the per-frame recognition loop never invokes the
liveness voter: a whole session's event trace consists solely of
attendance mutations, so marking is gated only by the session dedup set
and classroom membership, never by a liveness verdict. -/
theorem recognition_loop_never_checks_liveness
    (students : List Lifecycle.StudentRow) (lecId lecClassroom now : Nat)
    (atts : List Ledger.AttRecord) (frames : List (List String)) :
    ((processFrames students lecId lecClassroom now (sessionInit atts)
        frames).events).all isMarkEvent = true := by
  have hgen : ∀ (fs : List (List String)) (st : MonState),
      st.events.all isMarkEvent = true →
      (processFrames students lecId lecClassroom now st fs).events.all
        isMarkEvent = true := by
    intro fs
    induction fs with
    | nil => intro st h; exact h
    | cons f fsl ih =>
      intro st h
      simp only [processFrames, List.foldl_cons]
      apply ih
      have hframe : ∀ (nms : List String) (st2 : MonState),
          st2.events.all isMarkEvent = true →
          (processFrame students lecId lecClassroom now st2 nms).events.all
            isMarkEvent = true := by
        intro nms
        induction nms with
        | nil => intro st2 h2; exact h2
        | cons x xsl ih2 =>
          intro st2 h2
          simp only [processFrame, List.foldl_cons]
          exact ih2 _ (processName_all_marks students lecId lecClassroom now
            st2 x h2)
      exact hframe f st h
  exact hgen frames (sessionInit atts) (by simp [sessionInit])

/-- C2 (counterexample): one frame recognizing an enrolled student mutates
attendance with no liveness evaluation anywhere in the trace, refuting
the claim that every attendance mutation is preceded by a passing
liveness check. -/
theorem liveness_gate_refuted : ¬ livenessGateClaim := by
  intro h
  exact absurd (h [Lifecycle.StudentRow.mk 5 1 "alice"] 1 1 0 [] [["alice"]])
    (by decide)

end Monitor

namespace ConflictForm

/-- Membership in the cancelled-id list agrees with the per-slot
cancellation lookup. -/
theorem cancelled_eq (cls : List Schedule.Cancelled) (d : Nat)
    (t : Schedule.Slot) :
    decide (t.tid ∈ cancelledIds cls d) = Schedule.isCancelledOn cls t d := by
  rw [Bool.eq_iff_iff]
  simp only [decide_eq_true_eq, cancelledIds, Schedule.isCancelledOn,
    List.any_eq_true, List.mem_map, List.mem_filter, Bool.and_eq_true]
  constructor
  · rintro ⟨cc, ⟨h1, h2⟩, h3⟩
    exact ⟨cc, h1, by simp [h3], h2⟩
  · rintro ⟨cc, h1, h3, h2⟩
    refine ⟨cc, ⟨h1, h2⟩, by simpa using h3⟩

/-- A recurring-classroom conflict is a spec conflict. -/
theorem spec_of_recurCls (cls : List Schedule.Cancelled) (c : Candidate)
    (t : Schedule.Slot) (h : recurClsPred cls c t = true) :
    specSlotB cls c t = true := by
  simp only [recurClsPred, Bool.and_eq_true, Bool.not_eq_true',
    decide_eq_true_eq] at h
  obtain ⟨⟨⟨⟨hcl, hdow⟩, hrec⟩, hov⟩, hcan⟩ := h
  have hcanf : Schedule.isCancelledOn cls t c.cdate = false := by
    rw [← cancelled_eq]; exact hcan
  simp [specSlotB, effectiveOnB, hcl, hdow, hrec, hov, hcanf]

/-- A recurring-room conflict is a spec conflict. -/
theorem spec_of_recurRoom (cls : List Schedule.Cancelled) (c : Candidate)
    (t : Schedule.Slot) (h : recurRoomPred cls c t = true) :
    specSlotB cls c t = true := by
  simp only [recurRoomPred, Bool.and_eq_true, Bool.not_eq_true',
    decide_eq_true_eq] at h
  obtain ⟨⟨⟨⟨hro, hdow⟩, hrec⟩, hov⟩, hcan⟩ := h
  have hcanf : Schedule.isCancelledOn cls t c.cdate = false := by
    rw [← cancelled_eq]; exact hcan
  simp [specSlotB, effectiveOnB, hro, hdow, hrec, hov, hcanf]

/-- An extra-classroom conflict by an uncancelled slot is a spec
conflict. -/
theorem spec_of_extraCls (cls : List Schedule.Cancelled) (c : Candidate)
    (t : Schedule.Slot)
    (hcr : t.is_recurring = false → Schedule.isCancelledOn cls t c.cdate = false)
    (h : extraClsPred c t = true) : specSlotB cls c t = true := by
  simp only [extraClsPred, Bool.and_eq_true, Bool.not_eq_true',
    decide_eq_true_eq] at h
  obtain ⟨⟨⟨hcl, hrec⟩, hex⟩, hov⟩ := h
  simp [specSlotB, effectiveOnB, hcl, hrec, hex, hov, hcr hrec]

/-- An extra-room conflict by an uncancelled slot is a spec conflict. -/
theorem spec_of_extraRoom (cls : List Schedule.Cancelled) (c : Candidate)
    (t : Schedule.Slot)
    (hcr : t.is_recurring = false → Schedule.isCancelledOn cls t c.cdate = false)
    (h : extraRoomPred c t = true) : specSlotB cls c t = true := by
  simp only [extraRoomPred, Bool.and_eq_true, Bool.not_eq_true',
    decide_eq_true_eq] at h
  obtain ⟨⟨⟨hro, hrec⟩, hex⟩, hov⟩ := h
  simp [specSlotB, effectiveOnB, hro, hrec, hex, hov, hcr hrec]

/-- A spec conflict falls into one of the form's four filters. -/
theorem branches_of_spec (cls : List Schedule.Cancelled) (c : Candidate)
    (t : Schedule.Slot) (h : specSlotB cls c t = true) :
    recurClsPred cls c t = true ∨ extraClsPred c t = true ∨
    recurRoomPred cls c t = true ∨ extraRoomPred c t = true := by
  simp only [specSlotB, Bool.and_eq_true, Bool.or_eq_true,
    Bool.not_eq_true', decide_eq_true_eq] at h
  obtain ⟨⟨⟨hwhere, heff⟩, hcan⟩, hov⟩ := h
  have hcan2 : decide (t.tid ∈ cancelledIds cls c.cdate) = false := by
    rw [cancelled_eq]; exact hcan
  cases hrec : t.is_recurring with
  | true =>
    have hdow : t.day_of_week = Schedule.weekday c.cdate := by
      simpa [effectiveOnB, hrec] using heff
    rcases hwhere with hcl | hro
    · exact Or.inl (by simp [recurClsPred, hcl, hdow, hrec, hov, hcan2])
    · exact Or.inr (Or.inr (Or.inl
        (by simp [recurRoomPred, hro, hdow, hrec, hov, hcan2])))
  | false =>
    have hex : t.extra_date = some c.cdate := by
      simpa [effectiveOnB, hrec] using heff
    rcases hwhere with hcl | hro
    · exact Or.inr (Or.inl (by simp [extraClsPred, hcl, hrec, hex, hov]))
    · exact Or.inr (Or.inr (Or.inr
        (by simp [extraRoomPred, hro, hrec, hex, hov])))

/-- C3: with end after start, a non-past date, and cancellations only ever
recorded against recurring slots (the invariant the cancellation view
maintains by offering only recurring slots), the extra-lecture form
accepts exactly when no non-cancelled slot of the same classroom or room,
effective on the candidate's date, overlaps it — and every rejection
reports a slot that genuinely conflicts in that sense. -/
theorem validate_extra_slot_conflicts (tts : List Schedule.Slot)
    (cls : List Schedule.Cancelled) (today : Nat) (c : Candidate)
    (hv : c.start_time < c.end_time) (hp : today ≤ c.cdate)
    (hcr : ∀ t ∈ tts, t.is_recurring = false →
      Schedule.isCancelledOn cls t c.cdate = false) :
    (cleanExtraLecture tts cls today c = FormResult.ok ↔
      specConflictB tts cls c = false) ∧
    (∀ t, cleanExtraLecture tts cls today c = FormResult.conflict t →
      t ∈ tts ∧ specSlotB cls c t = true) := by
  have hg1 : ¬ (c.end_time ≤ c.start_time) := by omega
  have hg2 : ¬ (c.cdate < today) := by omega
  unfold cleanExtraLecture
  rw [if_neg hg1, if_neg hg2]
  cases hf1 : Schedule.firstOrdered (tts.filter (recurClsPred cls c)) with
  | some t1 =>
    have hmem := List.mem_filter.mp (Schedule.firstOrdered_mem hf1)
    have hspec : specConflictB tts cls c = true := by
      simp only [specConflictB, List.any_eq_true]
      exact ⟨t1, hmem.1, spec_of_recurCls cls c t1 hmem.2⟩
    refine ⟨⟨fun hok => by simp at hok, fun hfalse => by
      rw [hspec] at hfalse; exact absurd hfalse (by simp)⟩, ?_⟩
    intro t ht
    simp only [FormResult.conflict.injEq] at ht
    subst ht
    exact ⟨hmem.1, spec_of_recurCls cls c t1 hmem.2⟩
  | none =>
    cases hf2 : Schedule.firstOrdered (tts.filter (extraClsPred c)) with
    | some t2 =>
      have hmem := List.mem_filter.mp (Schedule.firstOrdered_mem hf2)
      have hs := spec_of_extraCls cls c t2 (hcr t2 hmem.1) hmem.2
      have hspec : specConflictB tts cls c = true := by
        simp only [specConflictB, List.any_eq_true]
        exact ⟨t2, hmem.1, hs⟩
      refine ⟨⟨fun hok => by simp at hok, fun hfalse => by
        rw [hspec] at hfalse; exact absurd hfalse (by simp)⟩, ?_⟩
      intro t ht
      simp only [FormResult.conflict.injEq] at ht
      subst ht
      exact ⟨hmem.1, hs⟩
    | none =>
      cases hf3 : Schedule.firstOrdered (tts.filter (recurRoomPred cls c)) with
      | some t3 =>
        have hmem := List.mem_filter.mp (Schedule.firstOrdered_mem hf3)
        have hs := spec_of_recurRoom cls c t3 hmem.2
        have hspec : specConflictB tts cls c = true := by
          simp only [specConflictB, List.any_eq_true]
          exact ⟨t3, hmem.1, hs⟩
        refine ⟨⟨fun hok => by simp at hok, fun hfalse => by
          rw [hspec] at hfalse; exact absurd hfalse (by simp)⟩, ?_⟩
        intro t ht
        simp only [FormResult.conflict.injEq] at ht
        subst ht
        exact ⟨hmem.1, hs⟩
      | none =>
        cases hf4 : Schedule.firstOrdered (tts.filter (extraRoomPred c)) with
        | some t4 =>
          have hmem := List.mem_filter.mp (Schedule.firstOrdered_mem hf4)
          have hs := spec_of_extraRoom cls c t4 (hcr t4 hmem.1) hmem.2
          have hspec : specConflictB tts cls c = true := by
            simp only [specConflictB, List.any_eq_true]
            exact ⟨t4, hmem.1, hs⟩
          refine ⟨⟨fun hok => by simp at hok, fun hfalse => by
            rw [hspec] at hfalse; exact absurd hfalse (by simp)⟩, ?_⟩
          intro t ht
          simp only [FormResult.conflict.injEq] at ht
          subst ht
          exact ⟨hmem.1, hs⟩
        | none =>
          have he1 := Schedule.firstOrdered_eq_none.mp hf1
          have he2 := Schedule.firstOrdered_eq_none.mp hf2
          have he3 := Schedule.firstOrdered_eq_none.mp hf3
          have he4 := Schedule.firstOrdered_eq_none.mp hf4
          have hnospec : specConflictB tts cls c = false := by
            rw [← Bool.not_eq_true]
            simp only [specConflictB, List.any_eq_true, not_exists]
            intro t
            intro hcon
            obtain ⟨htt, hs⟩ := hcon
            rcases branches_of_spec cls c t hs with h | h | h | h
            · have : t ∈ tts.filter (recurClsPred cls c) :=
                List.mem_filter.mpr ⟨htt, h⟩
              rw [he1] at this; simp at this
            · have : t ∈ tts.filter (extraClsPred c) :=
                List.mem_filter.mpr ⟨htt, h⟩
              rw [he2] at this; simp at this
            · have : t ∈ tts.filter (recurRoomPred cls c) :=
                List.mem_filter.mpr ⟨htt, h⟩
              rw [he3] at this; simp at this
            · have : t ∈ tts.filter (extraRoomPred c) :=
                List.mem_filter.mpr ⟨htt, h⟩
              rw [he4] at this; simp at this
          refine ⟨by simp [hnospec], ?_⟩
          intro t ht
          simp at ht

/-- Witness for C3: one recurring slot 9:00-10:00 in room 1 for classroom
1 on weekday 0, against a non-overlapping 10:00-11:00 candidate. -/
theorem validate_extra_slot_conflicts_witness :
    (Candidate.mk 1 1 7 600 660).start_time <
      (Candidate.mk 1 1 7 600 660).end_time ∧
    7 ≤ (Candidate.mk 1 1 7 600 660).cdate ∧
    (∀ t ∈ [Schedule.Slot.mk 1 1 1 0 540 600 true none],
      t.is_recurring = false →
      Schedule.isCancelledOn [] t (Candidate.mk 1 1 7 600 660).cdate = false) ∧
    ((cleanExtraLecture [Schedule.Slot.mk 1 1 1 0 540 600 true none] [] 7
        (Candidate.mk 1 1 7 600 660) = FormResult.ok ↔
      specConflictB [Schedule.Slot.mk 1 1 1 0 540 600 true none] []
        (Candidate.mk 1 1 7 600 660) = false) ∧
     (∀ t, cleanExtraLecture [Schedule.Slot.mk 1 1 1 0 540 600 true none] [] 7
        (Candidate.mk 1 1 7 600 660) = FormResult.conflict t →
      t ∈ [Schedule.Slot.mk 1 1 1 0 540 600 true none] ∧
      specSlotB [] (Candidate.mk 1 1 7 600 660) t = true)) :=
  ⟨by decide, by decide, by decide,
    validate_extra_slot_conflicts [Schedule.Slot.mk 1 1 1 0 540 600 true none]
      [] 7 (Candidate.mk 1 1 7 600 660) (by decide) (by decide) (by decide)⟩

end ConflictForm
